import Mathlib

/-!
Verification of the SCRA automation pipeline (`src/scraAutomation.js`).

The JavaScript source is shallowly embedded: strings are `List Char`,
regular-expression tests are modelled character by character, the retry
loop becomes a structurally recursive function over the retry budget, and
the filesystem artifacts become explicit Lean structures built by the same
expressions the source writes out.
-/

namespace Scra

/-! ## Document classifier

Embedding of the classification loop of `runScraAutomation`:

```js
let proofOfMilitaryServiceFound = 'No';
const lines = pdfText.split(/\r?\n/);
let inTable = false;
for (const line of lines) {
  if (/Start Date/i.test(line)) inTable = true;
  if (inTable && /Service Component/i.test(line)) inTable = false;
  if (inTable) {
    if (!/\b(NA|No)\b/i.test(line) && /\w/.test(line)) {
      proofOfMilitaryServiceFound = 'Yes';
      break;
    }
  }
}
```
-/

/-- JavaScript `\w`: ASCII letter, digit or underscore. -/
def isWordChar (c : Char) : Bool := c.isAlphanum || c = '_'

/-- Substring test on character lists: `pat` occurs somewhere in the list. -/
def containsSub (pat : List Char) : List Char → Bool
  | [] => decide (pat = [])
  | c :: cs => pat.isPrefixOf (c :: cs) || containsSub pat cs

/-- Case-insensitive substring test (the pattern is given lowercased),
modelling a `/pat/i.test(line)` call on a literal pattern. -/
def containsCI (pat : List Char) (l : List Char) : Bool :=
  containsSub pat (l.map Char.toLower)

/-- The lowercased table-start marker of `/Start Date/i`. -/
def startDatePat : List Char := ['s','t','a','r','t',' ','d','a','t','e']

/-- The lowercased table-end marker of `/Service Component/i`. -/
def serviceComponentPat : List Char :=
  ['s','e','r','v','i','c','e',' ','c','o','m','p','o','n','e','n','t']

/-- `/Start Date/i.test(line)`. -/
def isTableStart (l : List Char) : Bool := containsCI startDatePat l

/-- `/Service Component/i.test(line)`. -/
def isTableEnd (l : List Char) : Bool := containsCI serviceComponentPat l

/-- Do two consecutive characters spell `NA` or `No`, case-insensitively? -/
def isNaNoPair (a b : Char) : Bool :=
  a.toLower = 'n' && (b.toLower = 'a' || b.toLower = 'o')

/-- Scanner for `/\b(NA|No)\b/i`: `prev` is the character just before the
current position (`none` at the start of the line); a match needs a
non-word character (or line edge) on both sides of the two-letter token. -/
def hasNaNoWordAux (prev : Option Char) : List Char → Bool
  | a :: b :: rest =>
      (isNaNoPair a b
        && (match prev with | none => true | some p => !isWordChar p)
        && (match rest with | [] => true | c :: _ => !isWordChar c))
      || hasNaNoWordAux (some a) (b :: rest)
  | _ => false

/-- `/\b(NA|No)\b/i.test(line)`. -/
def hasNaNoWord (l : List Char) : Bool := hasNaNoWordAux none l

/-- `/\w/.test(line)`. -/
def hasWordChar (l : List Char) : Bool := l.any isWordChar

/-- The in-table test of the loop body:
`!/\b(NA|No)\b/i.test(line) && /\w/.test(line)`. -/
def lineNonPlaceholder (l : List Char) : Bool := !hasNaNoWord l && hasWordChar l

/-- One iteration's update of the `inTable` flag: the two `if` statements
at the top of the loop body. -/
def classifyStep (inTable : Bool) (l : List Char) : Bool :=
  let t1 := if isTableStart l then true else inTable
  if t1 && isTableEnd l then false else t1

/-- The classification loop: scan the lines, threading the `inTable` flag;
return `"Yes"` and stop at the first in-table non-placeholder line,
else `"No"`. -/
def classifyAux : Bool → List (List Char) → String
  | _, [] => "No"
  | t, l :: ls =>
    let t2 := classifyStep t l
    if t2 && lineNonPlaceholder l then "Yes" else classifyAux t2 ls

/-- `pdfText.split(/\r?\n/)`: split at `\r\n` or lone `\n`. -/
def splitLinesAux (acc : List Char) : List Char → List (List Char)
  | [] => [acc.reverse]
  | '\r' :: '\n' :: rest => acc.reverse :: splitLinesAux [] rest
  | '\n' :: rest => acc.reverse :: splitLinesAux [] rest
  | c :: rest => splitLinesAux (c :: acc) rest

/-- Line splitting of the extracted document text. -/
def splitLines (text : List Char) : List (List Char) := splitLinesAux [] text

/-- `proofOfMilitaryServiceFound` as a function of the extracted text. -/
def classify (text : List Char) : String := classifyAux false (splitLines text)

/-- The in-table region: the lines at which the loop body's `if (inTable)`
test holds, scanning the whole list (without the early `break`). -/
def tableRegion : Bool → List (List Char) → List (List Char)
  | _, [] => []
  | t, l :: ls =>
    let t2 := classifyStep t l
    (if t2 then [l] else []) ++ tableRegion t2 ls

theorem classifyAux_eq_yes_iff (t : Bool) (ls : List (List Char)) :
    classifyAux t ls = "Yes" ↔
      ∃ l ∈ tableRegion t ls, lineNonPlaceholder l = true := by
  induction ls generalizing t with
  | nil => simp [classifyAux, tableRegion]
  | cons l ls ih =>
    simp only [classifyAux, tableRegion]
    by_cases h2 : classifyStep t l = true
    · by_cases hnp : lineNonPlaceholder l = true
      · simp [h2, hnp]
      · simp [h2, hnp, ih]
    · simp only [Bool.not_eq_true] at h2
      simp [h2, ih]

theorem classifyAux_eq_no_or_yes (t : Bool) (ls : List (List Char)) :
    classifyAux t ls = "No" ∨ classifyAux t ls = "Yes" := by
  induction ls generalizing t with
  | nil => simp [classifyAux]
  | cons l ls ih =>
    simp only [classifyAux]
    by_cases h : (classifyStep t l && lineNonPlaceholder l) = true
    · simp [h]
    · simpa [h] using ih (classifyStep t l)

/-- C1. The classifier's determination is characterized by the in-table
region of the scanned text: it returns `"Yes"` exactly when some line of
the in-table region is non-placeholder (no `NA`/`No` word and at least one
word character), and `"No"` exactly when every in-table line is a
placeholder line; the early `break` makes the result insensitive to
anything after the first non-placeholder in-table line, which the
`"Yes"`-direction of the characterization captures. -/
theorem classify_characterized_by_tableRegion (text : List Char) :
    (classify text = "Yes" ↔
      ∃ l ∈ tableRegion false (splitLines text), lineNonPlaceholder l = true) ∧
    (classify text = "No" ↔
      ∀ l ∈ tableRegion false (splitLines text), lineNonPlaceholder l = false) := by
  constructor
  · exact classifyAux_eq_yes_iff false (splitLines text)
  · constructor
    · intro hno l hl
      rcases Bool.eq_false_or_eq_true (lineNonPlaceholder l) with htr | hf
      · exfalso
        have hyes : classify text = "Yes" :=
          (classifyAux_eq_yes_iff false (splitLines text)).2 ⟨l, hl, htr⟩
        rw [hno] at hyes
        exact absurd hyes (by decide)
      · exact hf
    · intro hall
      rcases classifyAux_eq_no_or_yes false (splitLines text) with h | h
      · exact h
      · exfalso
        rcases (classifyAux_eq_yes_iff false (splitLines text)).1 h with ⟨l, hl, htr⟩
        rw [hall l hl] at htr
        exact absurd htr (by decide)

theorem classifyAux_no_tableStart (ls : List (List Char))
    (h : ∀ l ∈ ls, isTableStart l = false) : classifyAux false ls = "No" := by
  induction ls with
  | nil => rfl
  | cons l ls ih =>
    have hl : isTableStart l = false := h l (List.mem_cons_self l ls)
    have hstep : classifyStep false l = false := by
      simp [classifyStep, hl]
    simp only [classifyAux, hstep]
    simpa using ih (fun l' hl' => h l' (List.mem_cons_of_mem l hl'))

/-- C10. If no line of the extracted text matches the table-start marker
`/Start Date/i`, the classifier returns `"No"` whatever else the text
contains. -/
theorem classify_no_tableStart_eq_no (text : List Char)
    (h : ∀ l ∈ splitLines text, isTableStart l = false) :
    classify text = "No" :=
  classifyAux_no_tableStart (splitLines text) h

/-- Witness for C10: a text with military-service content but no
`Start Date` marker is classified `"No"`. -/
theorem classify_no_tableStart_eq_no_witness :
    classify ['A','r','m','y',' ','A','c','t','i','v','e',' ',
              '2','0','0','1','\n','N','A'] = "No" :=
  classify_no_tableStart_eq_no
    ['A','r','m','y',' ','A','c','t','i','v','e',' ','2','0','0','1','\n','N','A']
    (by decide)

/-! ## Resilient navigation engine

Embedding of `retry`:

```js
async function retry(fn, maxRetries = 3, initialDelay = 5000, maxDelay = 60000, finalError = null) {
  let retries = 0;
  let delay = initialDelay;
  while (true) {
    try { return await fn(); }
    catch (error) {
      retries++;
      if (retries > maxRetries) { throw finalError || error; }
      const jitter = Math.random() * 1000;
      delay = Math.min(delay * 1.5 + jitter, maxDelay);
      await new Promise(resolve => setTimeout(resolve, delay));
    }
  }
}
```

The operation is modelled as a function from the attempt index to a success
flag, and `Math.random() * 1000` as an ambient jitter sequence, also indexed
by the attempt whose failure triggers the recomputation. The loop is
structurally recursive on the remaining retry budget `maxRetries - retries`.
`retryLoop` returns the total number of invocations of the operation, the
list of sleep durations actually performed (in order), and whether the run
ended in success (`false` = the final error is re-raised). -/

/-- `delay = Math.min(delay * 1.5 + jitter, maxDelay)`. -/
def nextDelay (maxDelay delay jitter : ℚ) : ℚ :=
  min (delay * (3 / 2) + jitter) maxDelay

def retryLoop (op : Nat → Bool) (jitter : Nat → ℚ) (maxDelay : ℚ) :
    Nat → Nat → ℚ → Nat × List ℚ × Bool
  | 0, idx, _ =>
    if op idx then (idx + 1, [], true) else (idx + 1, [], false)
  | r + 1, idx, delay =>
    if op idx then (idx + 1, [], true)
    else
      let d := nextDelay maxDelay delay (jitter idx)
      let rest := retryLoop op jitter maxDelay r (idx + 1) d
      (rest.1, d :: rest.2.1, rest.2.2)

/-- `retry(fn, maxRetries, initialDelay, maxDelay)`. -/
def retry (op : Nat → Bool) (maxRetries : Nat) (initialDelay maxDelay : ℚ)
    (jitter : Nat → ℚ) : Nat × List ℚ × Bool :=
  retryLoop op jitter maxDelay maxRetries 0 initialDelay

/-- The list of sleeps the retry engine performs. -/
def retrySleeps (op : Nat → Bool) (maxRetries : Nat)
    (initialDelay maxDelay : ℚ) (jitter : Nat → ℚ) : List ℚ :=
  (retry op maxRetries initialDelay maxDelay jitter).2.1

/-- The number of times the retry engine invokes the operation. -/
def retryAttempts (op : Nat → Bool) (maxRetries : Nat)
    (initialDelay maxDelay : ℚ) (jitter : Nat → ℚ) : Nat :=
  (retry op maxRetries initialDelay maxDelay jitter).1

theorem retryLoop_attempts_allFail (op : Nat → Bool) (jitter : Nat → ℚ)
    (maxDelay : ℚ) (hop : ∀ i, op i = false) :
    ∀ r idx delay, (retryLoop op jitter maxDelay r idx delay).1 = idx + r + 1 := by
  intro r
  induction r with
  | zero => intro idx delay; simp [retryLoop, hop idx]
  | succ r ih =>
    intro idx delay
    simp only [retryLoop, hop idx, Bool.false_eq_true, if_false]
    rw [ih (idx + 1)]
    omega

theorem retryLoop_sleeps_length_allFail (op : Nat → Bool) (jitter : Nat → ℚ)
    (maxDelay : ℚ) (hop : ∀ i, op i = false) :
    ∀ r idx delay, (retryLoop op jitter maxDelay r idx delay).2.1.length = r := by
  intro r
  induction r with
  | zero => intro idx delay; simp [retryLoop, hop idx]
  | succ r ih =>
    intro idx delay
    simp [retryLoop, hop idx, ih (idx + 1)]

theorem retryLoop_sleeps_le_maxDelay (op : Nat → Bool) (jitter : Nat → ℚ)
    (maxDelay : ℚ) :
    ∀ r idx delay, ∀ d ∈ (retryLoop op jitter maxDelay r idx delay).2.1,
      d ≤ maxDelay := by
  intro r
  induction r with
  | zero =>
    intro idx delay d hd
    by_cases h : op idx = true <;> simp [retryLoop, h] at hd
  | succ r ih =>
    intro idx delay d hd
    by_cases h : op idx = true
    · simp [retryLoop, h] at hd
    · simp only [retryLoop, h, Bool.false_eq_true, if_neg, not_false_iff,
        List.mem_cons] at hd
      rcases hd with hd | hd
      · rw [hd]; exact min_le_right _ _
      · exact ih (idx + 1) _ d hd

theorem retryLoop_sleeps_nonneg (op : Nat → Bool) (jitter : Nat → ℚ)
    (maxDelay : ℚ) (hM : 0 ≤ maxDelay) (hj : ∀ i, 0 ≤ jitter i) :
    ∀ r idx delay, 0 ≤ delay →
      ∀ d ∈ (retryLoop op jitter maxDelay r idx delay).2.1, 0 ≤ d := by
  intro r
  induction r with
  | zero =>
    intro idx delay _ d hd
    by_cases h : op idx = true <;> simp [retryLoop, h] at hd
  | succ r ih =>
    intro idx delay hdelay d hd
    by_cases h : op idx = true
    · simp [retryLoop, h] at hd
    · have hnext : 0 ≤ nextDelay maxDelay delay (jitter idx) := by
        apply le_min _ hM
        have : 0 ≤ delay * (3 / 2) := by positivity
        linarith [hj idx]
      simp only [retryLoop, h, Bool.false_eq_true, if_neg, not_false_iff,
        List.mem_cons] at hd
      rcases hd with hd | hd
      · rw [hd]; exact hnext
      · exact ih (idx + 1) _ hnext d hd

theorem retryLoop_sleeps_chain (op : Nat → Bool) (jitter : Nat → ℚ)
    (maxDelay : ℚ) (hM : 0 ≤ maxDelay) (hj : ∀ i, 0 ≤ jitter i) :
    ∀ r idx delay, 0 ≤ delay →
      List.Chain' (· ≤ ·) (retryLoop op jitter maxDelay r idx delay).2.1 := by
  intro r
  induction r with
  | zero =>
    intro idx delay _
    by_cases h : op idx = true <;> simp [retryLoop, h]
  | succ r ih =>
    intro idx delay hdelay
    by_cases h : op idx = true
    · simp [retryLoop, h]
    · have hnext : 0 ≤ nextDelay maxDelay delay (jitter idx) := by
        apply le_min _ hM
        have : 0 ≤ delay * (3 / 2) := by positivity
        linarith [hj idx]
      simp only [retryLoop, h, Bool.false_eq_true, if_neg, not_false_iff]
      apply List.chain'_cons'.2
      refine ⟨?_, ih (idx + 1) _ hnext⟩
      intro y hy
      -- the head of the tail, if present, is `nextDelay maxDelay d j` for
      -- the current sleep `d`, which is at least `d` since `d ≤ maxDelay`
      -- and `d * 1.5 + j ≥ d` for nonnegative `d` and `j`
      set d := nextDelay maxDelay delay (jitter idx) with hd
      have hdM : d ≤ maxDelay := min_le_right _ _
      cases r with
      | zero =>
        by_cases h2 : op (idx + 1) = true <;> simp [retryLoop, h2] at hy
      | succ r2 =>
        by_cases h2 : op (idx + 1) = true
        · simp [retryLoop, h2] at hy
        · simp only [retryLoop, h2, Bool.false_eq_true, if_neg,
            not_false_iff, List.head?_cons, Option.mem_def,
            Option.some.injEq] at hy
          rw [← hy]
          apply le_min _ hdM
          have : d ≤ d * (3 / 2) := by linarith
          linarith [hj (idx + 1)]

theorem retryLoop_fails_allFail (op : Nat → Bool) (jitter : Nat → ℚ)
    (maxDelay : ℚ) (hop : ∀ i, op i = false) :
    ∀ r idx delay, (retryLoop op jitter maxDelay r idx delay).2.2 = false := by
  intro r
  induction r with
  | zero => intro idx delay; simp [retryLoop, hop idx]
  | succ r ih =>
    intro idx delay
    simp only [retryLoop, hop idx, Bool.false_eq_true, if_false]
    exact ih (idx + 1) _

/-- C4. When the operation fails on every attempt, `retry` invokes it
exactly `maxRetries + 1` times and ends by re-raising (success flag
`false`); the sequence of recomputed delays it sleeps through is
non-decreasing and every delay is at most `maxDelay`, for any jitter
sequence in `[0, 1000)` (and nonnegative initial/maximum delays, as the
millisecond durations of the source are). -/
theorem retry_allFail_attempts_and_delays (op : Nat → Bool) (maxRetries : Nat)
    (initialDelay maxDelay : ℚ) (jitter : Nat → ℚ)
    (hop : ∀ i, op i = false) (hinit : 0 ≤ initialDelay) (hM : 0 ≤ maxDelay)
    (hj : ∀ i, 0 ≤ jitter i ∧ jitter i < 1000) :
    retryAttempts op maxRetries initialDelay maxDelay jitter = maxRetries + 1 ∧
    (retry op maxRetries initialDelay maxDelay jitter).2.2 = false ∧
    List.Chain' (· ≤ ·)
      (retrySleeps op maxRetries initialDelay maxDelay jitter) ∧
    ∀ d ∈ retrySleeps op maxRetries initialDelay maxDelay jitter,
      d ≤ maxDelay := by
  refine ⟨?_, ?_, ?_, ?_⟩
  · rw [retryAttempts, retry, retryLoop_attempts_allFail op jitter maxDelay hop]
    omega
  · rw [retry, retryLoop_fails_allFail op jitter maxDelay hop]
  · exact retryLoop_sleeps_chain op jitter maxDelay hM
      (fun i => (hj i).1) maxRetries 0 initialDelay hinit
  · exact retryLoop_sleeps_le_maxDelay op jitter maxDelay maxRetries 0
      initialDelay

/-- Witness for C4 at `maxRetries = 2`, `initialDelay = 5000`,
`maxDelay = 60000`, zero jitter. -/
theorem retry_allFail_attempts_and_delays_witness :
    retryAttempts (fun _ => false) 2 5000 60000 (fun _ => 0) = 2 + 1 ∧
    (retry (fun _ => false) 2 5000 60000 (fun _ => 0)).2.2 = false ∧
    List.Chain' (· ≤ ·)
      (retrySleeps (fun _ => false) 2 5000 60000 (fun _ => 0)) ∧
    ∀ d ∈ retrySleeps (fun _ => false) 2 5000 60000 (fun _ => 0),
      d ≤ 60000 :=
  retry_allFail_attempts_and_delays (fun _ => false) 2 5000 60000 (fun _ => 0)
    (fun _ => rfl) (by norm_num) (by norm_num)
    (fun _ => ⟨le_refl 0, by norm_num⟩)

/-- Counterexample for C3. The claim says the sleep before the second
attempt lasts exactly `initialDelay`; in the source the delay is
recomputed before the sleep, so with `initialDelay = 5000`,
`maxDelay = 60000` and zero jitter, the first sleep is
`min(5000 * 1.5 + 0, 60000) = 7500`, not `5000`. -/
theorem retry_first_sleep_counterexample :
    (retrySleeps (fun _ => false) 3 5000 60000 (fun _ => 0)).head? =
      some 7500 ∧ (7500 : ℚ) ≠ 5000 := by
  constructor
  · norm_num [retrySleeps, retry, retryLoop, nextDelay]
  · norm_num

/-- C3 (amended). After each failed attempt with attempts remaining, the
engine first recomputes `delay = min(delay * 1.5 + jitter, maxDelay)` and
only then sleeps for the recomputed value; consequently the sleep before
the second attempt lasts `min(initialDelay * 1.5 + jitter₀, maxDelay)`. -/
theorem retry_first_sleep_recomputed (op : Nat → Bool) (maxRetries : Nat)
    (initialDelay maxDelay : ℚ) (jitter : Nat → ℚ)
    (hop : op 0 = false) (h1 : 1 ≤ maxRetries) :
    (retrySleeps op maxRetries initialDelay maxDelay jitter).head? =
      some (nextDelay maxDelay initialDelay (jitter 0)) := by
  cases maxRetries with
  | zero => omega
  | succ r =>
    simp [retrySleeps, retry, retryLoop, hop]

/-- Witness for the amended C3: with `initialDelay = 5000`,
`maxDelay = 60000` and zero jitter the first sleep is the recomputed
delay. -/
theorem retry_first_sleep_recomputed_witness :
    (retrySleeps (fun _ => false) 3 5000 60000 (fun _ => 0)).head? =
      some (nextDelay 60000 5000 0) :=
  retry_first_sleep_recomputed (fun _ => false) 3 5000 60000 (fun _ => 0)
    rfl (by norm_num)

/-! ## Form interaction sequencer: SSN cleaning

`const cleanedSsn = ssn.replace(/\D/g, '');` followed by
`page.fill('#ssnInput', cleanedSsn)` and
`page.fill('#ssnConfirmationInput', cleanedSsn)`. -/

/-- `s.replace(/\D/g, '')`: drop every character that is not a decimal
digit. -/
def replaceNonDigits : List Char → List Char
  | [] => []
  | c :: cs =>
    if !c.isDigit then replaceNonDigits cs else c :: replaceNonDigits cs

/-- `cleanedSsn`. -/
def cleanedSsn (ssn : List Char) : List Char := replaceNonDigits ssn

/-- The values filled into the identifier field (`#ssnInput`) and the
confirmation field (`#ssnConfirmationInput`). -/
def ssnFieldFills (ssn : List Char) : List Char × List Char :=
  (cleanedSsn ssn, cleanedSsn ssn)

theorem cleanedSsn_eq_filter (ssn : List Char) :
    cleanedSsn ssn = ssn.filter Char.isDigit := by
  induction ssn with
  | nil => rfl
  | cons c cs ih =>
    by_cases h : c.isDigit = true
    · simp [cleanedSsn, replaceNonDigits, List.filter, h] at ih ⊢
      exact ih
    · simp only [Bool.not_eq_true] at h
      simp [cleanedSsn, replaceNonDigits, List.filter, h] at ih ⊢
      exact ih

/-- C8. Both the identifier field and its confirmation field receive
exactly the subsequence of decimal digits of the input identifier, and the
stripping is idempotent. -/
theorem ssnFieldFills_digit_subsequence (ssn : List Char) :
    (ssnFieldFills ssn).1 = ssn.filter Char.isDigit ∧
    (ssnFieldFills ssn).2 = ssn.filter Char.isDigit ∧
    cleanedSsn (cleanedSsn ssn) = cleanedSsn ssn := by
  refine ⟨cleanedSsn_eq_filter ssn, cleanedSsn_eq_filter ssn, ?_⟩
  rw [cleanedSsn_eq_filter ssn, cleanedSsn_eq_filter, List.filter_filter]
  simp

/-! ## Browser session manager: the operation lock

Embedding of `withBrowserLock` and of the orchestrator's acquisition step
(`browser = await withBrowserLock(() => initBrowser(3)); if (!browser)
throw ...`). The global mutable pair
(`browserOperationInProgress`, `browserOperationStartTime`) becomes an
explicit state; `Date.now()` becomes the `now` argument (milliseconds). -/

structure LockState where
  inProgress : Bool
  startTime : Int
deriving DecidableEq, Repr

/-- `BROWSER_OPERATION_TIMEOUT_MS = 30 * 1000`. -/
def browserOperationTimeoutMs : Int := 30 * 1000

/-- `withBrowserLock(operation)`: skip (returning `null`, modelled `none`)
when a prior operation is in progress and not yet stale; otherwise run the
operation, with the busy flag cleared again in the `finally` path. -/
def withBrowserLock {A : Type} (st : LockState) (now : Int)
    (op : Unit → A) : Option A × LockState :=
  if st.inProgress ∧ ¬(now - st.startTime > browserOperationTimeoutMs) then
    (none, st)
  else
    (some (op ()), { inProgress := false, startTime := now })

/-- The orchestrator's lock acquisition: a `null` result from
`withBrowserLock` is turned into the thrown session-busy error. -/
def acquireBrowser (st : LockState) (now : Int) :
    Except String Unit × LockState :=
  match withBrowserLock st now (fun _ => ()) with
  | (none, st2) =>
    (Except.error
      "Could not get browser lock - another browser operation is in progress",
      st2)
  | (some b, st2) => (Except.ok b, st2)

/-- C5. With a prior operation marked busy: if the elapsed time has not
exceeded the 30-second staleness threshold, the operation is skipped
(`none`, with the state untouched) and the orchestrator's acquisition
fails with the session-busy error; if the elapsed time exceeds the
threshold, the busy flag is force-cleared and the operation runs despite
the stale flag. -/
theorem withBrowserLock_busy_behavior {A : Type} (st : LockState) (now : Int)
    (op : Unit → A) (hbusy : st.inProgress = true) :
    (now - st.startTime ≤ browserOperationTimeoutMs →
      (withBrowserLock st now op).1 = none ∧
      (withBrowserLock st now op).2 = st ∧
      (acquireBrowser st now).1 = Except.error
        "Could not get browser lock - another browser operation is in progress") ∧
    (now - st.startTime > browserOperationTimeoutMs →
      (withBrowserLock st now op).1 = some (op ()) ∧
      (withBrowserLock st now op).2.inProgress = false) := by
  constructor
  · intro hfresh
    have hcond : st.inProgress ∧
        ¬(now - st.startTime > browserOperationTimeoutMs) :=
      ⟨hbusy, not_lt.2 hfresh⟩
    refine ⟨?_, ?_, ?_⟩
    · simp [withBrowserLock, hcond]
    · simp [withBrowserLock, hcond]
    · simp [acquireBrowser, withBrowserLock, hcond]
  · intro hstale
    have hcond : ¬(st.inProgress ∧
        ¬(now - st.startTime > browserOperationTimeoutMs)) := by
      intro h
      exact h.2 hstale
    have hres : withBrowserLock st now op =
        (some (op ()), { inProgress := false, startTime := now }) := by
      unfold withBrowserLock
      rw [if_neg hcond]
    rw [hres]
    exact ⟨rfl, rfl⟩

/-- Witness for C5: a lock taken at time 0 blocks an acquisition at 1000ms
(fresh) but yields to one at 40000ms (stale). -/
theorem withBrowserLock_busy_behavior_witness :
    ((withBrowserLock ⟨true, 0⟩ 1000 (fun _ => (7 : Nat))).1 = none ∧
      (withBrowserLock ⟨true, 0⟩ 1000 (fun _ => (7 : Nat))).2 = ⟨true, 0⟩ ∧
      (acquireBrowser ⟨true, 0⟩ 1000).1 = Except.error
        "Could not get browser lock - another browser operation is in progress") ∧
    ((withBrowserLock ⟨true, 0⟩ 40000 (fun _ => (7 : Nat))).1 = some 7 ∧
      (withBrowserLock ⟨true, 0⟩ 40000 (fun _ => (7 : Nat))).2.inProgress
        = false) :=
  ⟨(withBrowserLock_busy_behavior ⟨true, 0⟩ 1000 (fun _ => (7 : Nat)) rfl).1
      (by norm_num [browserOperationTimeoutMs]),
    (withBrowserLock_busy_behavior ⟨true, 0⟩ 40000 (fun _ => (7 : Nat)) rfl).2
      (by norm_num [browserOperationTimeoutMs])⟩

/-! ## Central error log

Embedding of the append in the `catch` block of `runScraAutomation`:

```js
const errorLogPath = path.join(LOGS_DIR, 'error_log.json');
let errorLog = [];
if (fs.existsSync(errorLogPath)) {
  try { errorLog = JSON.parse(fs.readFileSync(errorLogPath, 'utf8')); }
  catch (e) { console.error('Failed to parse existing error log:', e); }
}
errorLog.push(errorReport);
if (errorLog.length > 100) { errorLog = errorLog.slice(-100); }
fs.writeFileSync(errorLogPath, JSON.stringify(errorLog, null, 2));
```
-/

/-- The state of the central error log file when read back. -/
inductive LogFile (R : Type) : Type
  | absent : LogFile R
  | unparseable : LogFile R
  | parsed (entries : List R) : LogFile R

/-- The `errorLog` value after the existence check and the guarded parse:
missing file, or a parse failure swallowed by the inner `catch`, leaves
the initial empty array. -/
def loadErrorLog {R : Type} : LogFile R → List R
  | .absent => []
  | .unparseable => []
  | .parsed l => l

/-- The array written back: push the new report, then keep only the last
100 entries (`slice(-100)`). -/
def appendErrorLog {R : Type} (f : LogFile R) (report : R) : List R :=
  let l := loadErrorLog f ++ [report]
  if l.length > 100 then l.drop (l.length - 100) else l

/-- C7. After a failing run appends its report, the central error log is
an array of at most 100 entries, those entries are a suffix of the full
append sequence (the most recently appended reports in append order), and
the suffix has the maximal possible length `min (prior + 1) 100`. -/
theorem appendErrorLog_last_100 {R : Type} (f : LogFile R) (report : R) :
    (appendErrorLog f report).length ≤ 100 ∧
    appendErrorLog f report <:+ loadErrorLog f ++ [report] ∧
    (appendErrorLog f report).length =
      min ((loadErrorLog f).length + 1) 100 := by
  set l := loadErrorLog f ++ [report] with hl
  have hlen : l.length = (loadErrorLog f).length + 1 := by
    simp [hl]
  by_cases h : l.length > 100
  · have h1 : appendErrorLog f report = l.drop (l.length - 100) := by
      simp [appendErrorLog, ← hl, h]
    refine ⟨?_, ?_, ?_⟩
    · rw [h1, List.length_drop]; omega
    · rw [h1]; exact List.drop_suffix _ _
    · rw [h1, List.length_drop]; omega
  · have h1 : appendErrorLog f report = l := by
      simp [appendErrorLog, ← hl, h]
    refine ⟨?_, ?_, ?_⟩
    · rw [h1]; omega
    · rw [h1]
    · rw [h1]; omega

/-- C9. If the central error log file exists but does not parse, the
failing run still records its report: the file is overwritten with an
array holding only the new report, the unparseable prior contents being
discarded (the parse failure is swallowed by the inner `catch`). -/
theorem appendErrorLog_unparseable {R : Type} (report : R) :
    appendErrorLog (LogFile.unparseable) report = [report] := by
  simp [appendErrorLog, loadErrorLog]

/-! ## Failure artifacts and sensitive-field masking

Embedding of the error report written by the `catch` block of
`runScraAutomation`:

```js
const errorReport = {
  timestamp: ..., error: { message, stack, name },
  context: {
    ssn: ssn ? '***-**-' + ssn.replace(/\D/g, '').slice(-4) : 'MISSING',
    dob: dob ? 'PROVIDED' : 'NOT PROVIDED',
    matterId,
    hasEndpointUrl: !!endpointUrl
  }
};
```

and of the `callback_error.json` artifact written when the callback POST
fails:

```js
fs.writeFileSync(path.join(runFolder, 'callback_error.json'),
  JSON.stringify({
    message: err.message,
    response: err.response ? { status: ..., data: ... } : null,
    endpoint: endpointUrl
  }, null, 2));
```
-/

/-- The request fields `runScraAutomation` is invoked with. Optional
fields model JavaScript's missing / falsy values. -/
structure RunInput where
  ssn : Option String
  dob : Option String
  lastName : String
  firstName : String
  scraUsername : String
  scraPassword : String
  matterId : String
  endpointUrl : Option String
deriving DecidableEq

/-- `s.slice(-4)`: the last four characters (the whole list when shorter). -/
def lastFour (s : List Char) : List Char := s.drop (s.length - 4)

/-- The `context` object of the persisted error report. -/
structure ErrorContext where
  ssnField : String
  dobField : String
  matterId : String
  hasEndpointUrl : Bool
deriving DecidableEq

/-- The persisted `error_report.json` payload (timestamp and stack left
out: they are opaque environment values). -/
structure ErrorReport where
  errMessage : String
  errName : String
  context : ErrorContext
deriving DecidableEq

def mkErrorReport (inp : RunInput) (errMessage errName : String) :
    ErrorReport :=
  { errMessage := errMessage
    errName := errName
    context :=
      { ssnField :=
          match inp.ssn with
          | some s => "***-**-" ++ String.mk (lastFour (cleanedSsn s.data))
          | none => "MISSING"
        dobField :=
          match inp.dob with
          | some _ => "PROVIDED"
          | none => "NOT PROVIDED"
        matterId := inp.matterId
        hasEndpointUrl := inp.endpointUrl.isSome } }

/-- The persisted `callback_error.json` payload. -/
structure CallbackErrorArtifact where
  message : String
  responseStatus : Option Int
  responseData : Option String
  endpoint : String
deriving DecidableEq

def mkCallbackError (errMessage : String) (response : Option (Int × String))
    (endpointUrl : String) : CallbackErrorArtifact :=
  { message := errMessage
    responseStatus := response.map Prod.fst
    responseData := response.map Prod.snd
    endpoint := endpointUrl }

/-- The failure artifacts of one failing run: the error report, and the
callback-error record when the failure was a callback-delivery failure
(which only happens when a callback URL was supplied). -/
def failureArtifacts (inp : RunInput) (errMessage errName : String)
    (cbFailure : Option (String × Option (Int × String))) :
    ErrorReport × Option CallbackErrorArtifact :=
  (mkErrorReport inp errMessage errName,
    match inp.endpointUrl, cbFailure with
    | some url, some (msg, resp) => some (mkCallbackError msg resp url)
    | _, _ => none)

set_option maxRecDepth 4096 in
/-- Counterexample for C2. The claim says the callback URL is persisted
only as a short prefix/length preview and never in full; but on callback
failure the `callback_error.json` artifact records the URL in full:
with a 60-character callback URL the persisted `endpoint` field is the
whole URL, not its 15-character preview. -/
theorem callbackError_full_url_counterexample :
    (failureArtifacts
        { ssn := some "123-45-6789", dob := none, lastName := "Smith",
          firstName := "Ann", scraUsername := "user1",
          scraPassword := "hunter2", matterId := "M-001",
          endpointUrl :=
            some "https://callback.example.com/hooks/secret-token-0123456789" }
        "Failed to send results: Network Error" "Error"
        (some ("Network Error", none))).2 =
      some (mkCallbackError "Network Error" none
        "https://callback.example.com/hooks/secret-token-0123456789") ∧
    (mkCallbackError "Network Error" none
        "https://callback.example.com/hooks/secret-token-0123456789").endpoint =
      "https://callback.example.com/hooks/secret-token-0123456789" ∧
    "https://callback.example.com/hooks/secret-token-0123456789" ≠
      ("https://callback.example.com/hooks/secret-token-0123456789".take 15) := by
  refine ⟨rfl, rfl, ?_⟩
  decide

/-- C2 (amended). The persisted failure artifacts are independent of the
remote-site credentials (so the credentials reach no artifact), the error
report masks the subject identifier to `***-**-` plus the last 4 digits,
and it previews the callback URL only as a presence flag; however, when
the failure is a callback-delivery failure, the `callback_error.json`
artifact records the callback URL in full. -/
theorem failureArtifacts_masking (inp : RunInput) (errMessage errName : String)
    (u p : String) (cbFailure : Option (String × Option (Int × String))) :
    failureArtifacts { inp with scraUsername := u, scraPassword := p }
        errMessage errName cbFailure =
      failureArtifacts inp errMessage errName cbFailure ∧
    (∀ s, inp.ssn = some s →
      (failureArtifacts inp errMessage errName cbFailure).1.context.ssnField =
        "***-**-" ++ String.mk (lastFour (cleanedSsn s.data))) ∧
    (failureArtifacts inp errMessage errName cbFailure).1.context.hasEndpointUrl
      = inp.endpointUrl.isSome ∧
    (∀ url msg resp, inp.endpointUrl = some url →
      cbFailure = some (msg, resp) →
      (failureArtifacts inp errMessage errName cbFailure).2 =
        some (mkCallbackError msg resp url) ∧
      (mkCallbackError msg resp url).endpoint = url) := by
  refine ⟨rfl, ?_, rfl, ?_⟩
  · intro s hs
    simp [failureArtifacts, mkErrorReport, hs]
  · intro url msg resp hurl hcb
    subst hcb
    refine ⟨?_, rfl⟩
    simp [failureArtifacts, hurl]

/-- Witness for the amended C2 at a concrete failing run with a supplied
SSN and callback URL. -/
theorem failureArtifacts_masking_witness :
    failureArtifacts
        { ssn := some "123-45-6789", dob := none, lastName := "Smith",
          firstName := "Ann", scraUsername := "other-user",
          scraPassword := "other-pass", matterId := "M-001",
          endpointUrl := some "https://cb.example.com/x" }
        "boom" "Error" (some ("Network Error", none)) =
      failureArtifacts
        { ssn := some "123-45-6789", dob := none, lastName := "Smith",
          firstName := "Ann", scraUsername := "user1",
          scraPassword := "hunter2", matterId := "M-001",
          endpointUrl := some "https://cb.example.com/x" }
        "boom" "Error" (some ("Network Error", none)) ∧
    (failureArtifacts
        { ssn := some "123-45-6789", dob := none, lastName := "Smith",
          firstName := "Ann", scraUsername := "user1",
          scraPassword := "hunter2", matterId := "M-001",
          endpointUrl := some "https://cb.example.com/x" }
        "boom" "Error" (some ("Network Error", none))).1.context.ssnField =
      "***-**-" ++ String.mk (lastFour (cleanedSsn "123-45-6789".data)) := by
  have h := failureArtifacts_masking
    { ssn := some "123-45-6789", dob := none, lastName := "Smith",
      firstName := "Ann", scraUsername := "user1",
      scraPassword := "hunter2", matterId := "M-001",
      endpointUrl := some "https://cb.example.com/x" }
    "boom" "Error" "other-user" "other-pass"
    (some ("Network Error", none))
  exact ⟨h.1, h.2.1 "123-45-6789" rfl⟩

/-! ## Run artifact paths

Each per-run artifact is written to `path.join(runFolder, name)`, where
`runFolder = path.join(OUTPUTS_DIR, 'run-' + timestamp)` is the run's own
timestamp-keyed directory (`createRunFolder`). Paths are modelled as lists
of segments; `path.join` appends the (possibly `/`-containing) name and
normalizes, with `..` popping the previous segment and `.` and empty
segments removed — Node's normalization of an absolute base path. -/

/-- Split a file name at `/` into path segments. -/
def splitSegsAux (acc : List Char) : List Char → List (List Char)
  | [] => [acc.reverse]
  | c :: rest =>
    if c = '/' then acc.reverse :: splitSegsAux [] rest
    else splitSegsAux (c :: acc) rest

def splitSegs (name : List Char) : List (List Char) := splitSegsAux [] name

def dotSeg : List Char := ['.']
def dotDotSeg : List Char := ['.', '.']

/-- Path normalization over segments (`acc` holds the output, reversed):
empty and `.` segments vanish, `..` pops the previous segment (and at the
root of an absolute path is dropped). -/
def normSegsAux : List (List Char) → List (List Char) → List (List Char)
  | acc, [] => acc.reverse
  | acc, s :: rest =>
    if s = [] ∨ s = dotSeg then normSegsAux acc rest
    else if s = dotDotSeg then
      match acc with
      | [] => normSegsAux [] rest
      | _ :: as => normSegsAux as rest
    else normSegsAux (s :: acc) rest

/-- `path.join(base, name)` with `base` already split into segments. -/
def joinPath (base : List (List Char)) (name : List Char) :
    List (List Char) :=
  normSegsAux [] (base ++ splitSegs name)

/-- A path segment that normalization passes through unchanged. -/
def NormalSeg (s : List Char) : Prop := s ≠ [] ∧ s ≠ dotSeg ∧ s ≠ dotDotSeg

instance (s : List Char) : Decidable (NormalSeg s) := by
  unfold NormalSeg; infer_instance

/-- The document name the run renames the retrieved PDF to:
`'AFFIRMATION - Affirmation of Non Military.pdf'` on a negative
determination, else
``` `${firstName} ${lastName} - Proof of Military Service.pdf` ```. -/
def finalPdfName (det : String) (firstName lastName : List Char) :
    List Char :=
  if det = "No" then "AFFIRMATION - Affirmation of Non Military.pdf".data
  else firstName ++ [' '] ++ lastName ++ " - Proof of Military Service.pdf".data

/-- A decimal digit character, for `String(idx)`. -/
def digitChar : Nat → Char
  | 0 => '0' | 1 => '1' | 2 => '2' | 3 => '3' | 4 => '4'
  | 5 => '5' | 6 => '6' | 7 => '7' | 8 => '8' | 9 => '9'
  | _ => '*'

/-- `String(n)`: the decimal representation of a natural number. -/
def natDecChars (n : Nat) : List Char :=
  if _h : n < 10 then [digitChar n]
  else natDecChars (n / 10) ++ [digitChar (n % 10)]
termination_by n
decreasing_by
  simp_wf
  exact Nat.div_lt_self (by omega) (by omega)

/-- `s.padStart(2, '0')`. -/
def padStart2 (s : List Char) : List Char :=
  if s.length < 2 then List.replicate (2 - s.length) '0' ++ s else s

/-- `nextScreenshotName(base)`:
``` `${String(screenshotIndex++).padStart(2, '0')}_${base}` ```. -/
def screenshotName (idx : Nat) (base : List Char) : List Char :=
  padStart2 (natDecChars idx) ++ '_' :: base

/-- The screenshot base names `runScraAutomation` passes to
`nextScreenshotName` over the course of a run. -/
def screenshotBaseNames : List (List Char) :=
  ["screenshot_after_browser_init.png".data,
    "screenshot_after_context_creation.png".data,
    "screenshot_after_page_creation.png".data,
    "screenshot_google_connectivity.png".data,
    "screenshot_before_navigation.png".data,
    "screenshot_after_nav.png".data,
    "screenshot_nav_error.png".data,
    "screenshot_before_privacy_modal.png".data,
    "screenshot_after_privacy_modal.png".data,
    "screenshot_privacy_modal_error.png".data,
    "screenshot_before_login_check.png".data,
    "screenshot_login_form_found.png".data,
    "screenshot_after_username_filled.png".data,
    "screenshot_after_password_filled.png".data,
    "screenshot_before_login_submit.png".data,
    "screenshot_after_login.png".data,
    "screenshot_login_error.png".data,
    "screenshot_no_login_form.png".data,
    "screenshot_after_stabilization.png".data,
    "screenshot_before_form_filling.png".data,
    "screenshot_after_ssn_filled.png".data,
    "screenshot_after_ssn_confirmation_filled.png".data,
    "screenshot_after_lastname_filled.png".data,
    "screenshot_after_firstname_filled.png".data,
    "screenshot_after_dob_filled.png".data,
    "screenshot_after_form_completed.png".data,
    "screenshot_before_checkbox_wait.png".data,
    "screenshot_before_checkbox.png".data,
    "screenshot_after_checkbox.png".data,
    "screenshot_checkbox_primary_failed.png".data,
    "screenshot_after_checkbox_label_click.png".data,
    "screenshot_checkbox_label_failed.png".data,
    "screenshot_after_checkbox_alternative.png".data,
    "screenshot_before_submit.png".data,
    "screenshot_download_started.png".data,
    "screenshot_after_download.png".data,
    "screenshot_pdf_parsing.png".data,
    "screenshot_before_callback.png".data,
    "screenshot_after_callback.png".data]

/-- The fixed file names the run writes under its own folder (network log,
result summary, error report, callback records, downloaded document, and
the fallback screenshots taken outside the numbered sequence). -/
def fixedArtifactNames : List (List Char) :=
  ["network_log.json".data, "result.json".data, "error_report.json".data,
    "callback_response.json".data, "callback_request.json".data,
    "callback_error.json".data, "network_summary.json".data,
    "scra-result.pdf".data, "screenshot_on_error.png".data,
    "screenshot_callback_error.png".data,
    "screenshot_download_error.png".data,
    "screenshot_checkbox_not_found.png".data,
    "screenshot_checkbox_error.png".data,
    "AFFIRMATION - Affirmation of Non Military.pdf".data]

theorem splitSegsAux_no_slash (name : List Char) :
    ∀ acc, '/' ∉ name → splitSegsAux acc name = [acc.reverse ++ name] := by
  induction name with
  | nil => intro acc _; simp [splitSegsAux]
  | cons c rest ih =>
    intro acc h
    have hc : ¬(c = '/') := fun he => h (he ▸ List.mem_cons_self c rest)
    have hrest : '/' ∉ rest := fun hm => h (List.mem_cons_of_mem c hm)
    simp only [splitSegsAux, if_neg hc]
    rw [ih (c :: acc) hrest]
    simp

theorem splitSegs_no_slash (name : List Char) (h : '/' ∉ name) :
    splitSegs name = [name] := by
  rw [splitSegs, splitSegsAux_no_slash name [] h]
  simp

theorem normSegsAux_normal (base : List (List Char))
    (h : ∀ s ∈ base, NormalSeg s) :
    ∀ acc rest, normSegsAux acc (base ++ rest) =
      normSegsAux (base.reverse ++ acc) rest := by
  induction base with
  | nil => intro acc rest; simp
  | cons s bs ih =>
    intro acc rest
    have hs : NormalSeg s := h s (List.mem_cons_self s bs)
    have hbs : ∀ t ∈ bs, NormalSeg t :=
      fun t ht => h t (List.mem_cons_of_mem s ht)
    have h1 : ¬(s = [] ∨ s = dotSeg) := by
      rintro (he | he)
      · exact hs.1 he
      · exact hs.2.1 he
    simp only [List.cons_append, normSegsAux, if_neg h1, if_neg hs.2.2,
      List.append_eq]
    rw [ih hbs (s :: acc) rest]
    simp

theorem digitChar_ne_slash (k : Nat) : digitChar k ≠ '/' := by
  unfold digitChar
  split <;> decide

theorem natDecChars_no_slash (n : Nat) : '/' ∉ natDecChars n := by
  induction n using Nat.strong_induction_on with
  | _ n ih =>
    rw [natDecChars]
    by_cases h : n < 10
    · simp only [h, dif_pos, List.mem_singleton]
      exact fun he => digitChar_ne_slash n he.symm
    · simp only [h, dif_neg, not_false_iff, List.mem_append,
        List.mem_singleton]
      rintro (hm | hm)
      · exact ih (n / 10) (Nat.div_lt_self (by omega) (by omega)) hm
      · exact digitChar_ne_slash (n % 10) hm.symm

theorem one_le_length_natDecChars (n : Nat) :
    1 ≤ (natDecChars n).length := by
  rw [natDecChars]
  by_cases h : n < 10 <;> simp [h]

theorem padStart2_no_slash (s : List Char) (h : '/' ∉ s) :
    '/' ∉ padStart2 s := by
  rw [padStart2]
  by_cases hl : s.length < 2
  · simp only [hl, if_pos, List.mem_append]
    rintro (hm | hm)
    · exact absurd (List.eq_of_mem_replicate hm) (by decide)
    · exact h hm
  · simpa [hl] using h

theorem two_le_length_padStart2 (s : List Char) (h : 1 ≤ s.length) :
    2 ≤ (padStart2 s).length := by
  rw [padStart2]
  by_cases hl : s.length < 2 <;> simp [hl] <;> omega

/-- C6 (amended). With the run folder's own segments normal (as the
`outputs/run-<timestamp>` segments are), every fixed-name artifact of a
run is created inside the run's directory; every numbered screenshot of
the `nextScreenshotName` sequence — for every index and every slash-free
base, in particular every base the source passes — is created inside the
run's directory; and the renamed document's path lies within the run's
directory for every `firstName` and `lastName` containing no `/`
character. -/
theorem runArtifacts_within_run_dir (run : List (List Char))
    (hrun : ∀ s ∈ run, NormalSeg s) :
    (∀ name ∈ fixedArtifactNames,
      joinPath run name = run ++ [name] ∧ run <+: joinPath run name) ∧
    (∀ idx base, '/' ∉ base →
      joinPath run (screenshotName idx base) =
        run ++ [screenshotName idx base] ∧
      run <+: joinPath run (screenshotName idx base)) ∧
    (∀ idx, ∀ base ∈ screenshotBaseNames,
      joinPath run (screenshotName idx base) =
        run ++ [screenshotName idx base] ∧
      run <+: joinPath run (screenshotName idx base)) ∧
    (∀ det firstName lastName, '/' ∉ firstName → '/' ∉ lastName →
      joinPath run (finalPdfName det firstName lastName) =
        run ++ [finalPdfName det firstName lastName] ∧
      run <+: joinPath run (finalPdfName det firstName lastName)) := by
  have key : ∀ name : List Char, '/' ∉ name → NormalSeg name →
      joinPath run name = run ++ [name] := by
    intro name hslash hnorm
    rw [joinPath, splitSegs_no_slash name hslash, normSegsAux_normal run hrun]
    have h1 : ¬(name = [] ∨ name = dotSeg) := by
      rintro (he | he)
      · exact hnorm.1 he
      · exact hnorm.2.1 he
    simp only [normSegsAux, if_neg h1, if_neg hnorm.2.2]
    simp [normSegsAux]
  have hshot : ∀ idx base, '/' ∉ base →
      joinPath run (screenshotName idx base) =
        run ++ [screenshotName idx base] ∧
      run <+: joinPath run (screenshotName idx base) := by
    intro idx base hbase
    have hslash : '/' ∉ screenshotName idx base := by
      rw [screenshotName]
      simp only [List.mem_append, List.mem_cons]
      rintro (hm | hm | hm)
      · exact padStart2_no_slash _ (natDecChars_no_slash idx) hm
      · exact absurd hm (by decide)
      · exact hbase hm
    have hlen : 2 < (screenshotName idx base).length := by
      rw [screenshotName]
      have h2 := two_le_length_padStart2 _ (one_le_length_natDecChars idx)
      simp only [List.length_append, List.length_cons]
      omega
    have hnorm : NormalSeg (screenshotName idx base) := by
      refine ⟨?_, ?_, ?_⟩ <;> intro he <;> rw [he] at hlen <;>
        simp [dotSeg, dotDotSeg] at hlen
    have he := key _ hslash hnorm
    exact ⟨he, he ▸ ⟨[screenshotName idx base], rfl⟩⟩
  refine ⟨?_, hshot, ?_, ?_⟩
  · intro name hname
    have hfacts : '/' ∉ name ∧ NormalSeg name := by
      fin_cases hname <;> exact ⟨by decide, by decide⟩
    have he := key name hfacts.1 hfacts.2
    exact ⟨he, he ▸ ⟨[name], rfl⟩⟩
  · intro idx base hbase
    refine hshot idx base ?_
    have hall : ∀ b ∈ screenshotBaseNames, '/' ∉ b := by decide
    exact hall base hbase
  · intro det firstName lastName hfn hln
    have hslash : '/' ∉ finalPdfName det firstName lastName := by
      rw [finalPdfName]
      by_cases hdet : det = "No"
      · simp only [if_pos hdet]
        decide
      · simp only [if_neg hdet, List.append_assoc, List.mem_append]
        rintro (h | h | h | h)
        · exact hfn h
        · exact absurd h (by decide)
        · exact hln h
        · exact absurd h (by decide)
    have hnorm : NormalSeg (finalPdfName det firstName lastName) := by
      rw [finalPdfName]
      by_cases hdet : det = "No"
      · simp only [if_pos hdet]
        decide
      · simp only [if_neg hdet]
        have hlen : 2 <
            (firstName ++ [' '] ++ lastName ++
              " - Proof of Military Service.pdf".data).length := by
          simp [List.length_append]
          omega
        refine ⟨?_, ?_, ?_⟩ <;> intro he <;> rw [he] at hlen <;>
          simp [dotSeg, dotDotSeg] at hlen
    have he := key _ hslash hnorm
    exact ⟨he, he ▸ ⟨[finalPdfName det firstName lastName], rfl⟩⟩

/-- Witness for the amended C6: a concrete run folder and slash-free
names put the renamed document, a fixed artifact and the first numbered
screenshot inside the run folder. -/
theorem runArtifacts_within_run_dir_witness :
    joinPath ["outputs".data, "run-2025".data]
        (finalPdfName "Yes" "Ann".data "Smith".data) =
      ["outputs".data, "run-2025".data] ++
        [finalPdfName "Yes" "Ann".data "Smith".data] ∧
    joinPath ["outputs".data, "run-2025".data] "result.json".data =
      ["outputs".data, "run-2025".data] ++ ["result.json".data] ∧
    joinPath ["outputs".data, "run-2025".data]
        (screenshotName 1 "screenshot_after_browser_init.png".data) =
      ["outputs".data, "run-2025".data] ++
        [screenshotName 1 "screenshot_after_browser_init.png".data] := by
  have h := runArtifacts_within_run_dir ["outputs".data, "run-2025".data]
    (by decide)
  exact ⟨(h.2.2.2 "Yes" "Ann".data "Smith".data (by decide) (by decide)).1,
    (h.1 "result.json".data (by decide)).1,
    (h.2.2.1 1 "screenshot_after_browser_init.png".data (by decide)).1⟩

/-- Counterexample for C6. The claim quantifies over every `firstName`
and `lastName`; with `firstName = "../x"` the renamed document's
`path.join`-ed path pops out of the run folder, so it does not lie within
the run's directory. -/
theorem finalPdfPath_escape_counterexample :
    ¬ (["outputs".data, "run-2025".data] <+:
        joinPath ["outputs".data, "run-2025".data]
          (finalPdfName "Yes" "../x".data "Smith".data)) := by
  decide

end Scra
